import Mathlib

/-!
Verification development for the TDkoders business-management API.

The Python source (Django models and DRF views) is shallowly embedded:
database rows become Lean structures, querysets become lists, monetary
Decimal values become rationals, datetimes become natural numbers, and
methods that can raise ValidationError (or return a 4xx response)
become functions into Except String.  Each definition mirrors one
function of the source; theorems then settle the specification claims.
-/

namespace TDk

/-- Monetary amounts: Python Decimal values modelled as rationals. -/
abbrev Money := ℚ

/-- A status-history row, shared shape of OrderStatusHistory and
ReservationStatusHistory (apps/orders/models.py and
apps/reservations/models.py): previous status, new status, acting user
and free-form notes. -/
structure StatusHistoryRec where
  previous_status : String
  new_status : String
  changed_by : Option Nat
  notes : String
deriving DecidableEq

/-! ## Finance: double-entry posting (apps/finance/views.py) -/

/-- One TransactionEntry row: entry_type is the string "debit" or
"credit", amount a Decimal. -/
structure TransactionEntry where
  entry_type : String
  amount : Money
deriving DecidableEq

/-- A finance Transaction with its entries prefetched. -/
structure Transaction where
  is_posted : Bool
  posted_at : Option Nat
  entries : List TransactionEntry
deriving DecidableEq

/-- Sum of the amounts of the debit entries, with the SQL
aggregate returning 0 on the empty set (the `or 0` in the view). -/
def Transaction.debitTotal (t : Transaction) : Money :=
  ((t.entries.filter (fun e => e.entry_type == "debit")).map (fun e => e.amount)).sum

/-- Sum of the amounts of the credit entries. -/
def Transaction.creditTotal (t : Transaction) : Money :=
  ((t.entries.filter (fun e => e.entry_type == "credit")).map (fun e => e.amount)).sum

/-- TransactionViewSet.post (apps/finance/views.py lines 62-98): reject
an already posted transaction, reject an unbalanced one, otherwise set
is_posted and posted_at and save.  The 400 responses are modelled as
Except.error; no state accompanies an error, mirroring that the view
mutates nothing before returning one. -/
def Transaction.post (t : Transaction) (now : Nat) : Except String Transaction :=
  if t.is_posted then
    .error "La transaccion ya esta contabilizada"
  else if t.debitTotal != t.creditTotal then
    .error "La transaccion no esta balanceada"
  else
    .ok { t with is_posted := true, posted_at := some now }

/-! ## Reservations (apps/reservations/models.py, views.py) -/

/-- A Reservation row.  Datetimes are modelled as naturals; the primary
key pk identifies the row; reservation_number is a string modelled as a
list of character codes (see the reference-number section below). -/
structure Reservation where
  pk : Nat
  business : Nat
  service_provider : Option Nat
  start_datetime : Nat
  end_datetime : Nat
  status : String
  requires_deposit : Bool
  deposit_paid : Bool
  reservation_number : List Nat
  confirmed_at : Option Nat
  confirmed_by : Option Nat
deriving DecidableEq

/-- The three reservation statuses that block a time slot in
Reservation.clean. -/
def activeResStatuses : List String := ["pending", "confirmed", "in_progress"]

/-- The declared STATUS_CHOICES keys of Reservation. -/
def reservationStatusKeys : List String :=
  ["pending", "confirmed", "in_progress", "completed", "cancelled", "no_show"]

/-- Reservation.clean (models.py lines 196-220): reject end before
start; then, when a service provider is set, reject the reservation if
any other reservation of that provider with an active status satisfies
existing.start < new.end and existing.end > new.start.  db is the
reservation table. -/
def Reservation.clean (db : List Reservation) (r : Reservation) : Except String Unit :=
  if r.end_datetime ≤ r.start_datetime then
    .error "La hora de fin debe ser posterior a la de inicio"
  else
    match r.service_provider with
    | none => .ok ()
    | some _ =>
      if (db.filter (fun o =>
            o.service_provider == r.service_provider &&
            activeResStatuses.contains o.status &&
            decide (o.start_datetime < r.end_datetime) &&
            decide (o.end_datetime > r.start_datetime) &&
            o.pk != r.pk)).isEmpty
      then .ok ()
      else .error "El proveedor ya tiene una reserva en este horario"

/-- Reservation.confirm_reservation (models.py lines 222-245): only a
pending reservation can be confirmed; a required unpaid deposit blocks
confirmation; on success set status, confirmed_at, confirmed_by and
append one status-history row. -/
def Reservation.confirm_reservation (r : Reservation) (user : Nat) (now : Nat) :
    Except String (Reservation × StatusHistoryRec) :=
  if r.status != "pending" then
    .error "Solo se pueden confirmar reservas pendientes"
  else if r.requires_deposit && !r.deposit_paid then
    .error "Se requiere el pago del deposito para confirmar"
  else
    .ok ({ r with status := "confirmed", confirmed_at := some now, confirmed_by := some user },
         { previous_status := "pending", new_status := "confirmed",
           changed_by := some user, notes := "" })

/-- ReservationViewSet.change_status (views.py lines 63-90): reject a
status outside STATUS_CHOICES with a 400, otherwise set the status
unconditionally and append one history row recording the previous
status, new status, actor and note. -/
def Reservation.change_status (r : Reservation) (history : List StatusHistoryRec)
    (newStatus : String) (user : Nat) (notes : String) :
    Except String (Reservation × List StatusHistoryRec) :=
  if !(reservationStatusKeys.contains newStatus) then
    .error "Estado invalido"
  else
    .ok ({ r with status := newStatus },
         history ++ [{ previous_status := r.status, new_status := newStatus,
                       changed_by := some user, notes := notes }])

/-! ## Catalog and orders (apps/core/models/product.py, apps/orders/models.py) -/

/-- The slice of a Product row used by order items and stock handling. -/
structure ProductInfo where
  pid : Nat
  track_inventory : Bool
  has_variants : Bool
deriving DecidableEq

/-- An OrderItem row.  quantity is an IntegerField; all Decimal fields
are rationals.  variant holds the id of the chosen ProductVariant, if
any. -/
structure OrderItem where
  product : ProductInfo
  variant : Option Nat
  quantity : ℤ
  unit_price : Money
  discount_percentage : Money
  discount_amount : Money
  tax_rate : Money
  tax_amount : Money
  subtotal : Money
  total : Money
deriving DecidableEq

/-- OrderItem.clean (orders/models.py lines 364-378): a product with
variants needs a variant, and a given variant must belong to the
product.  vp maps a variant id to the id of its parent product. -/
def OrderItem.clean (vp : Nat → Nat) (it : OrderItem) : Except String Unit :=
  if it.product.has_variants && it.variant.isNone then
    .error "Este producto requiere seleccionar una variante"
  else
    match it.variant with
    | some v =>
      if vp v != it.product.pid then
        .error "La variante no pertenece al producto seleccionado"
      else .ok ()
    | none => .ok ()

/-- The total-computation part of OrderItem.save (lines 380-399):
subtotal is always recomputed; discount_amount only when
discount_percentage is positive; tax_amount only when tax_rate is
positive; total is base plus tax. -/
def OrderItem.calcTotals (it : OrderItem) : OrderItem :=
  let subtotal := it.unit_price * it.quantity
  let discount_amount :=
    if it.discount_percentage > 0 then subtotal * (it.discount_percentage / 100)
    else it.discount_amount
  let base_for_tax := subtotal - discount_amount
  let tax_amount :=
    if it.tax_rate > 0 then base_for_tax * (it.tax_rate / 100)
    else it.tax_amount
  { it with subtotal := subtotal, discount_amount := discount_amount,
            tax_amount := tax_amount, total := base_for_tax + tax_amount }

/-- OrderItem.save up to the database write: run clean, then compute
the totals. -/
def OrderItem.save (vp : Nat → Nat) (it : OrderItem) : Except String OrderItem :=
  match OrderItem.clean vp it with
  | .error e => .error e
  | .ok () => .ok (OrderItem.calcTotals it)

/-- An Order row (the slice relevant to totals and confirmation). -/
structure Order where
  business : Nat
  order_number : List Nat
  status : String
  shipping_cost : Money
  subtotal : Money
  discount_amount : Money
  tax_amount : Money
  total : Money
  confirmed_at : Option Nat
deriving DecidableEq

/-- Order.calculate_totals (lines 244-265): resum the items and set
total to subtotal minus discounts plus tax plus shipping. -/
def Order.calculate_totals (o : Order) (items : List OrderItem) : Order :=
  let subtotal := (items.map (fun it => it.subtotal)).sum
  let discount_amount := (items.map (fun it => it.discount_amount)).sum
  let tax_amount := (items.map (fun it => it.tax_amount)).sum
  { o with subtotal := subtotal, discount_amount := discount_amount,
           tax_amount := tax_amount,
           total := subtotal - discount_amount + tax_amount + o.shipping_cost }

/-- The tail of OrderItem.save (lines 401-404): after the item row is
written, the parent order resums all its items.  others are the order
items other than the one being saved; the result pairs the recomputed
order with the full item list. -/
def orderItemSaveCascade (vp : Nat → Nat) (o : Order) (others : List OrderItem)
    (it : OrderItem) : Except String (Order × List OrderItem) :=
  match OrderItem.save vp it with
  | .error e => .error e
  | .ok it2 =>
    let items := others ++ [it2]
    .ok (Order.calculate_totals o items, items)

/-! ### Stock state and order confirmation (Order.mark_as_confirmed,
ProductVariant.deduct_stock) -/

/-- The stock columns of the product and product_variants tables:
stock_quantity per product id and per variant id. -/
structure StockState where
  productStock : Nat → ℤ
  variantStock : Nat → ℤ

/-- A stock source: product-level stock or variant-level stock. -/
inductive StockRef where
  | prod (p : Nat)
  | var (v : Nat)
deriving DecidableEq

/-- Read a stock quantity. -/
def StockState.at (s : StockState) : StockRef → ℤ
  | .prod p => s.productStock p
  | .var v => s.variantStock v

/-- The stock source an order item draws from, when it tracks
inventory: the variant when the product has variants, else the
product itself. -/
def OrderItem.src (it : OrderItem) : Option StockRef :=
  if it.product.track_inventory then
    if it.product.has_variants then it.variant.map StockRef.var
    else some (StockRef.prod it.product.pid)
  else none

/-- The per-item stock check of Order.mark_as_confirmed (lines
177-192): tracked items need a variant when the product has variants,
and the stock of the source must cover the quantity. -/
def itemStockCheck (s : StockState) (it : OrderItem) : Except String Unit :=
  if it.product.track_inventory then
    if it.product.has_variants then
      match it.variant with
      | none => .error "El producto requiere una variante"
      | some v =>
        if s.variantStock v < it.quantity then .error "Stock insuficiente"
        else .ok ()
    else
      if s.productStock it.product.pid < it.quantity then .error "Stock insuficiente"
      else .ok ()
  else .ok ()

/-- Run the stock check over all items, stopping at the first failure. -/
def checkItems (s : StockState) : List OrderItem → Except String Unit
  | [] => .ok ()
  | it :: rest =>
    match itemStockCheck s it with
    | .error e => .error e
    | .ok () => checkItems s rest

/-- One step of the deduction loop (lines 195-201).  A variant item
goes through ProductVariant.deduct_stock (product.py lines 321-328),
which subtracts only when the current stock still covers the quantity
and otherwise returns False, a value the caller ignores; a
product-level item is decremented unconditionally.  Each item re-reads
the current stock, so items sharing a source see earlier deductions. -/
def deductItem (s : StockState) (it : OrderItem) : StockState :=
  if it.product.track_inventory then
    if it.product.has_variants then
      match it.variant with
      | some v =>
        if it.quantity ≤ s.variantStock v then
          { s with variantStock := fun x =>
              if x = v then s.variantStock v - it.quantity else s.variantStock x }
        else s
      | none => s
    else
      { s with productStock := fun x =>
          if x = it.product.pid then s.productStock it.product.pid - it.quantity
          else s.productStock x }
  else s

/-- The whole deduction loop. -/
def deductItems (s : StockState) (l : List OrderItem) : StockState :=
  l.foldl deductItem s

/-- The state Order.mark_as_confirmed touches: the order row, its
items, the stock columns and the order status-history table. -/
structure ConfirmState where
  order : Order
  items : List OrderItem
  stocks : StockState
  history : List StatusHistoryRec

/-- Order.mark_as_confirmed (orders/models.py lines 168-215): only
pending orders; check stock of every tracked item against the current
state; then deduct, set status and confirmed_at, and append one history
row.  The method runs inside transaction.atomic, so a raised
ValidationError rolls everything back: an error result carries no
state. -/
def Order.mark_as_confirmed (st : ConfirmState) (user : Nat) (now : Nat) :
    Except String ConfirmState :=
  if st.order.status != "pending" then
    .error "Solo se pueden confirmar ordenes pendientes"
  else
    match checkItems st.stocks st.items with
    | .error e => .error e
    | .ok () =>
      .ok { st with
        stocks := deductItems st.stocks st.items,
        order := { st.order with status := "confirmed", confirmed_at := some now },
        history := st.history ++
          [{ previous_status := "pending", new_status := "confirmed",
             changed_by := some user, notes := "Orden confirmada y stock reservado" }] }

/-! ## Memberships and permissions (apps/core/models/user.py,
apps/core/permissions.py) -/

/-- A BusinessMember row: the join of a user and a business with a
role string and an activity flag.  The table has a unique constraint
on (user, business). -/
structure BusinessMember where
  pk : Nat
  user : Nat
  business : Nat
  role : String
  is_active : Bool
deriving DecidableEq

/-- IsBusinessMemberOrReadOnly.has_object_permission
(permissions.py lines 19-43): objects without a business are denied;
staff passes; otherwise membership (active) grants safe methods, and
non-safe methods additionally fetch the unique (business, user) row
and require role owner or admin. -/
def has_object_permission (db : List BusinessMember) (isStaff : Bool)
    (safeMethod : Bool) (user : Nat) (objBusiness : Option Nat) : Bool :=
  match objBusiness with
  | none => false
  | some b =>
    if isStaff then true
    else
      let isMember := db.any (fun m => m.business == b && m.user == user && m.is_active)
      if safeMethod then isMember
      else if isMember then
        match db.find? (fun m => m.business == b && m.user == user) with
        | some m => m.role == "owner" || m.role == "admin"
        | none => false
      else false

/-- BusinessMember.clean (user.py lines 227-241): a member with role
owner is rejected when another active owner row (different pk) exists
for the same business. -/
def BusinessMember.clean (db : List BusinessMember) (m : BusinessMember) :
    Except String Unit :=
  if m.role == "owner" then
    if (db.filter (fun o =>
          o.business == m.business && o.role == "owner" && o.is_active &&
          o.pk != m.pk)).isEmpty
    then .ok ()
    else .error "Ya existe un propietario para este negocio"
  else .ok ()

/-- Persist a member row: replace the row with the same pk, or insert. -/
def upsertMember (db : List BusinessMember) (m : BusinessMember) :
    List BusinessMember :=
  db.filter (fun o => o.pk != m.pk) ++ [m]

/-- At most one active owner row per business (rows identified by pk). -/
def atMostOneActiveOwner (db : List BusinessMember) (b : Nat) : Prop :=
  ∀ m1 ∈ db, ∀ m2 ∈ db,
    m1.business = b → m2.business = b →
    m1.role = "owner" → m2.role = "owner" →
    m1.is_active = true → m2.is_active = true → m1.pk = m2.pk

/-! ## Reference-number generation (Order.save, orders/models.py lines
217-242, and Reservation.save, reservations/models.py lines 247-273)

Python strings are modelled as lists of character codes so that the
lexicographic comparison behind order_by("-order_number") is explicit. -/

/-- The character codes of a string literal. -/
def codes (s : String) : List Nat := s.data.map Char.toNat

/-- Python string comparison: lexicographic on character codes. -/
def pyStrLtB : List Nat → List Nat → Bool
  | [], [] => false
  | [], _ :: _ => true
  | _ :: _, [] => false
  | a :: as, b :: bs =>
    if a < b then true else if b < a then false else pyStrLtB as bs

/-- order_by("-order_number").first(): the maximum string of the list,
none when empty. -/
def maxByStr (l : List (List Nat)) : Option (List Nat) :=
  l.foldl (fun acc x =>
    match acc with
    | none => some x
    | some m => if pyStrLtB m x then some x else some m) none

/-- Python str.startswith. -/
def swCodes : List Nat → List Nat → Bool
  | [], _ => true
  | _ :: _, [] => false
  | p :: ps, c :: cs => p == c && swCodes ps cs

/-- Python s.split("-")[-1]: the segment after the last dash
(code 45), the whole string when no dash occurs. -/
def lastSegment (l : List Nat) : List Nat :=
  l.foldl (fun acc c => if c = 45 then [] else acc ++ [c]) []

/-- Python int(s) restricted to digit strings: some value on a
nonempty all-digit string, none (a ValueError) otherwise. -/
def parseDigits (l : List Nat) : Option Nat :=
  if l.isEmpty || !(l.all (fun c => 48 ≤ c && c ≤ 57)) then none
  else some (l.foldl (fun acc c => acc * 10 + (c - 48)) 0)

/-- The four zero-padded digit codes of n, for n below 10000
(Python format 04d). -/
def pad4 (n : Nat) : List Nat :=
  [48 + n / 1000 % 10, 48 + n / 100 % 10, 48 + n / 10 % 10, 48 + n % 10]

/-- Python format 04d in general: four zero-padded digits, or the
plain decimal digits once n needs five of them. -/
def fmtSeq (n : Nat) : List Nat :=
  if n < 10000 then pad4 n else (Nat.toDigits 10 n).map Char.toNat

/-- The number-generation block shared by Order.save and
Reservation.save: pre is the scan prefix (tag plus date, for example
the codes of "ORD-20260101"), existing the reference numbers of the
same business.  Scan the lexicographic maximum among the numbers
starting with pre, parse the segment after the last dash, add one
(falling back to 1 when absent or unparsable) and format the new
number. -/
def genRefNumber (pre : List Nat) (existing : List (List Nat)) : List Nat :=
  match maxByStr (existing.filter (fun s => swCodes pre s)) with
  | none => pre ++ [45] ++ fmtSeq 1
  | some last =>
    let newNum :=
      match parseDigits (lastSegment last) with
      | some k => k + 1
      | none => 1
    pre ++ [45] ++ fmtSeq newNum

/-- Order.save (lines 217-242): generate the order number when unset,
then write the row.  existing are the order numbers of the same
business; dateCodes the codes of the current date formatted YYYYMMDD. -/
def Order.save (existing : List (List Nat)) (o : Order) (dateCodes : List Nat) : Order :=
  if o.order_number.isEmpty then
    { o with order_number := genRefNumber (codes "ORD-" ++ dateCodes) existing }
  else o

/-- The row written by Reservation.save (lines 247-273): the
reservation number is generated when unset, scanning the reservation
numbers of the same business.  Reservation.save calls no validation:
clean never runs here. -/
def Reservation.savedRow (db : List Reservation) (r : Reservation)
    (dateCodes : List Nat) : Reservation :=
  let nums := (db.filter (fun o => o.business == r.business)).map
    (fun o => o.reservation_number)
  if r.reservation_number.isEmpty then
    { r with reservation_number := genRefNumber (codes "RES-" ++ dateCodes) nums }
  else r

/-- The write itself: replace or insert the row by pk. -/
def Reservation.save (db : List Reservation) (r : Reservation) (dateCodes : List Nat) :
    List Reservation × Reservation :=
  (db.filter (fun o => o.pk != r.pk) ++ [Reservation.savedRow db r dateCodes],
   Reservation.savedRow db r dateCodes)

/-! ## Concrete instances used by witnesses and counterexamples -/

/-- A balanced unposted transaction. -/
def exTx : Transaction :=
  { is_posted := false, posted_at := none,
    entries := [{ entry_type := "debit", amount := 5 },
                { entry_type := "credit", amount := 5 }] }

/-- exTx after posting at time 7. -/
def exTxPosted : Transaction :=
  { is_posted := true, posted_at := some 7,
    entries := [{ entry_type := "debit", amount := 5 },
                { entry_type := "credit", amount := 5 }] }

/-- A pending reservation whose required deposit is paid. -/
def exRes : Reservation :=
  { pk := 1, business := 1, service_provider := some 1,
    start_datetime := 600, end_datetime := 660, status := "pending",
    requires_deposit := true, deposit_paid := true,
    reservation_number := codes "RES-20260101-0001",
    confirmed_at := none, confirmed_by := none }

/-- exRes confirmed by user 4 at time 9. -/
def exResConfirmed : Reservation :=
  { exRes with status := "confirmed", confirmed_at := some 9, confirmed_by := some 4 }

/-- A pending reservation that requires a deposit that was never paid. -/
def exResUnpaid : Reservation :=
  { pk := 2, business := 1, service_provider := some 1,
    start_datetime := 720, end_datetime := 780, status := "pending",
    requires_deposit := true, deposit_paid := false,
    reservation_number := codes "RES-20260101-0002",
    confirmed_at := none, confirmed_by := none }

/-- A trivial variant-to-product map for items without variants. -/
def vp0 : Nat → Nat := fun _ => 0

/-- An order item with zero discount percentage but a nonzero supplied
discount_amount. -/
def exItem5 : OrderItem :=
  { product := { pid := 1, track_inventory := false, has_variants := false },
    variant := none, quantity := 1, unit_price := 100,
    discount_percentage := 0, discount_amount := 10, tax_rate := 0,
    tax_amount := 0, subtotal := 0, total := 0 }

/-- exItem5 after OrderItem.save: the supplied discount of 10 is kept. -/
def exItem5Saved : OrderItem :=
  { exItem5 with subtotal := 100, total := 90 }

/-- An order item with positive discount and tax rates. -/
def exItem5b : OrderItem :=
  { product := { pid := 1, track_inventory := false, has_variants := false },
    variant := none, quantity := 3, unit_price := 100,
    discount_percentage := 10, discount_amount := 0, tax_rate := 19,
    tax_amount := 0, subtotal := 0, total := 0 }

/-- exItem5b after OrderItem.save. -/
def exItem5bSaved : OrderItem :=
  { exItem5b with
    subtotal := 300, discount_amount := 30, tax_amount := 513 / 10, total := 3213 / 10 }

/-- An order with a shipping cost of 5 and no items yet. -/
def exOrder2 : Order :=
  { business := 1, order_number := codes "ORD-20260101-0001",
    status := "pending", shipping_cost := 5, subtotal := 0,
    discount_amount := 0, tax_amount := 0, total := 0, confirmed_at := none }

/-- A plain item: price 100, quantity 1, no discount, no tax. -/
def exItem2 : OrderItem :=
  { product := { pid := 1, track_inventory := false, has_variants := false },
    variant := none, quantity := 1, unit_price := 100,
    discount_percentage := 0, discount_amount := 0, tax_rate := 0,
    tax_amount := 0, subtotal := 0, total := 0 }

/-- exItem2 after OrderItem.save. -/
def exItem2Saved : OrderItem :=
  { exItem2 with subtotal := 100, total := 100 }

/-- exOrder2 after saving exItem2 into it. -/
def exOrder2Saved : Order :=
  { exOrder2 with
    subtotal := 100, discount_amount := 0, tax_amount := 0, total := 105 }

/-- A pending reservation for the same provider as exResConfirmed,
overlapping it (times 630 to 690 against 600 to 660). -/
def exResB : Reservation :=
  { pk := 2, business := 1, service_provider := some 1,
    start_datetime := 630, end_datetime := 690, status := "pending",
    requires_deposit := false, deposit_paid := false,
    reservation_number := codes "RES-20260101-0002",
    confirmed_at := none, confirmed_by := none }

/-- A pending reservation for the same provider touching exResConfirmed
exactly at its end (times 660 to 720). -/
def exResC : Reservation :=
  { pk := 3, business := 1, service_provider := some 1,
    start_datetime := 660, end_datetime := 720, status := "pending",
    requires_deposit := false, deposit_paid := false,
    reservation_number := codes "RES-20260101-0003",
    confirmed_at := none, confirmed_by := none }

/-- Specification predicate: the stock check of one item passes on
state s - a tracked item has a variant when the product has variants,
and the stock at its source covers its quantity. -/
def itemOkP (s : StockState) (it : OrderItem) : Prop :=
  it.product.track_inventory = true →
    ((it.product.has_variants = true → ∃ v, it.variant = some v) ∧
     ∀ ref, it.src = some ref → it.quantity ≤ s.at ref)

/-- No two items of the list draw from the same stock source. -/
def srcDisjoint (l : List OrderItem) : Prop :=
  List.Pairwise (fun a b => ∀ ref, a.src = some ref → b.src ≠ some ref) l

/-- A tracked item without variants: product 1, quantity 3. -/
def exItemC : OrderItem :=
  { product := { pid := 1, track_inventory := true, has_variants := false },
    variant := none, quantity := 3, unit_price := 100,
    discount_percentage := 0, discount_amount := 0, tax_rate := 19,
    tax_amount := 0, subtotal := 0, total := 0 }

/-- A pending order over one tracked product-level item with stock 10. -/
def exConfOk : ConfirmState :=
  { order := exOrder2,
    items := [exItemC],
    stocks := { productStock := fun _ => 10, variantStock := fun _ => 0 },
    history := [] }

/-- A tracked item drawing 6 units from variant 7. -/
def exItemV : OrderItem :=
  { product := { pid := 2, track_inventory := true, has_variants := true },
    variant := some 7, quantity := 6, unit_price := 50,
    discount_percentage := 0, discount_amount := 0, tax_rate := 0,
    tax_amount := 0, subtotal := 0, total := 0 }

/-- A pending order holding two items that both draw 6 units from
variant 7, whose stock is 10. -/
def exConfAlias : ConfirmState :=
  { order := exOrder2,
    items := [exItemV, exItemV],
    stocks := { productStock := fun _ => 0, variantStock := fun _ => 10 },
    history := [] }

/-- The numeric maximum of a list of naturals (0 on the empty list). -/
def maxNat (l : List Nat) : Nat := l.foldl Nat.max 0

/-- An order whose number is not yet set. -/
def exOrder6 : Order :=
  { business := 1, order_number := [], status := "pending",
    shipping_cost := 0, subtotal := 0, discount_amount := 0, tax_amount := 0,
    total := 0, confirmed_at := none }

/-- An active admin membership of user 10 in business 1. -/
def exMemberAdmin : BusinessMember :=
  { pk := 1, user := 10, business := 1, role := "admin", is_active := true }

/-- An active owner membership of user 11 in business 1. -/
def exMemberOwner : BusinessMember :=
  { pk := 2, user := 11, business := 1, role := "owner", is_active := true }

/-- A second owner candidate (different user, same business). -/
def exMemberOwner2 : BusinessMember :=
  { pk := 3, user := 12, business := 1, role := "owner", is_active := true }

/-! # Theorems -/

/-! ## Helper lemmas about item totals -/

/-- Field-level description of OrderItem.calcTotals. -/
lemma calcTotals_fields (it : OrderItem) :
    (OrderItem.calcTotals it).subtotal = it.unit_price * it.quantity ∧
    (OrderItem.calcTotals it).discount_amount =
      (if it.discount_percentage > 0 then
        (OrderItem.calcTotals it).subtotal * (it.discount_percentage / 100)
       else it.discount_amount) ∧
    (OrderItem.calcTotals it).tax_amount =
      (if it.tax_rate > 0 then
        ((OrderItem.calcTotals it).subtotal - (OrderItem.calcTotals it).discount_amount)
          * (it.tax_rate / 100)
       else it.tax_amount) ∧
    (OrderItem.calcTotals it).total =
      (OrderItem.calcTotals it).subtotal - (OrderItem.calcTotals it).discount_amount
        + (OrderItem.calcTotals it).tax_amount ∧
    (OrderItem.calcTotals it).quantity = it.quantity ∧
    (OrderItem.calcTotals it).unit_price = it.unit_price := by
  simp [OrderItem.calcTotals]

/-- A successful OrderItem.save returns exactly the recomputed item. -/
lemma save_ok_eq {vp : Nat → Nat} {it it2 : OrderItem}
    (h : OrderItem.save vp it = .ok it2) : it2 = OrderItem.calcTotals it := by
  unfold OrderItem.save at h
  cases hc : OrderItem.clean vp it with
  | error e => rw [hc] at h; cases h
  | ok u => cases u; rw [hc] at h; cases h; rfl

/-- Summing item totals distributes over the per-item identity. -/
lemma sum_total_eq (l : List OrderItem)
    (h : ∀ i ∈ l, i.total = i.subtotal - i.discount_amount + i.tax_amount) :
    (l.map (fun i => i.total)).sum =
      (l.map (fun i => i.subtotal)).sum - (l.map (fun i => i.discount_amount)).sum
        + (l.map (fun i => i.tax_amount)).sum := by
  induction l with
  | nil => simp
  | cons a tl ih =>
    simp only [List.map_cons, List.sum_cons]
    rw [h a (by simp), ih (fun i hi => h i (by simp [hi]))]
    ring

/-- Claim C3: posting a transaction succeeds if and only if it is not
already posted and the debit total equals the credit total; on success
is_posted becomes true and posted_at the current time; an
already-posted or unbalanced transaction yields an error, and the
error carries no state (the view returns before mutating anything). -/
theorem transaction_post_correct (t : Transaction) (now : Nat) :
    ((∃ t2, Transaction.post t now = .ok t2) ↔
      (t.is_posted = false ∧ t.debitTotal = t.creditTotal))
    ∧ (∀ t2, Transaction.post t now = .ok t2 →
        t2.is_posted = true ∧ t2.posted_at = some now ∧ t2.entries = t.entries)
    ∧ ((t.is_posted = true ∨ t.debitTotal ≠ t.creditTotal) →
        ∃ msg, Transaction.post t now = .error msg) := by
  by_cases hp : t.is_posted
  · simp [Transaction.post, hp]
  · by_cases hb : t.debitTotal = t.creditTotal
    · simp [Transaction.post, hp, hb]
    · simp [Transaction.post, hp, hb]

/-- Witness for transaction_post_correct at a concrete balanced
transaction. -/
theorem transaction_post_correct_witness :
    exTxPosted.is_posted = true ∧ exTxPosted.posted_at = some 7 ∧
    exTxPosted.entries = exTx.entries :=
  (transaction_post_correct exTx 7).2.1 exTxPosted (by
    simp +decide [Transaction.post, Transaction.debitTotal, Transaction.creditTotal,
      exTx, exTxPosted, List.filter_cons])

/-- Claim C7: confirm_reservation succeeds exactly on a pending
reservation whose deposit, when required, is paid; on success the
status becomes confirmed, confirmed_at and confirmed_by are set and
one history row is produced; otherwise it errors without state. -/
theorem reservation_confirm_correct (r : Reservation) (user now : Nat) :
    ((∃ res, Reservation.confirm_reservation r user now = .ok res) ↔
      (r.status = "pending" ∧ (r.requires_deposit = true → r.deposit_paid = true)))
    ∧ (∀ r2 rec, Reservation.confirm_reservation r user now = .ok (r2, rec) →
        r2.status = "confirmed" ∧ r2.confirmed_at = some now ∧
        r2.confirmed_by = some user ∧
        r2.start_datetime = r.start_datetime ∧ r2.end_datetime = r.end_datetime ∧
        r2.service_provider = r.service_provider ∧
        rec = { previous_status := "pending", new_status := "confirmed",
                changed_by := some user, notes := "" })
    ∧ ((r.status ≠ "pending" ∨ (r.requires_deposit = true ∧ r.deposit_paid = false)) →
        ∃ msg, Reservation.confirm_reservation r user now = .error msg) := by
  by_cases hs : r.status = "pending"
  · by_cases hd : r.requires_deposit
    · by_cases hpd : r.deposit_paid
      · simp [Reservation.confirm_reservation, hs, hd, hpd]
      · simp [Reservation.confirm_reservation, hs, hd, hpd]
    · simp [Reservation.confirm_reservation, hs, hd]
  · simp [Reservation.confirm_reservation, hs]

/-- Witness for reservation_confirm_correct: confirming a concrete
pending reservation with its deposit paid. -/
theorem reservation_confirm_correct_witness :
    exResConfirmed.status = "confirmed" ∧ exResConfirmed.confirmed_at = some 9 ∧
    exResConfirmed.confirmed_by = some 4 ∧
    exResConfirmed.start_datetime = exRes.start_datetime ∧
    exResConfirmed.end_datetime = exRes.end_datetime ∧
    exResConfirmed.service_provider = exRes.service_provider ∧
    ({ previous_status := "pending", new_status := "confirmed",
       changed_by := some 4, notes := "" } : StatusHistoryRec) =
      { previous_status := "pending", new_status := "confirmed",
        changed_by := some 4, notes := "" } :=
  (reservation_confirm_correct exRes 4 9).2.1 exResConfirmed _ (by rfl)

/-- Claim C10: for any requested status among the declared choices,
change_status sets the reservation status to it unconditionally - no
check of the current status, of the deposit flags or of overlapping
reservations - and appends one history row recording previous status,
new status, actor and note. -/
theorem reservation_change_status_correct (r : Reservation)
    (history : List StatusHistoryRec) (ns : String) (user : Nat) (notes : String)
    (h : ns ∈ reservationStatusKeys) :
    Reservation.change_status r history ns user notes =
      .ok ({ r with status := ns },
           history ++ [{ previous_status := r.status, new_status := ns,
                         changed_by := some user, notes := notes }]) := by
  simp [Reservation.change_status, h]

/-- Witness for reservation_change_status_correct: a reservation that
requires an unpaid deposit still reaches status confirmed through
change_status. -/
theorem reservation_change_status_correct_witness :
    Reservation.change_status exResUnpaid [] "confirmed" 4 "forced" =
      .ok ({ exResUnpaid with status := "confirmed" },
           [{ previous_status := "pending", new_status := "confirmed",
              changed_by := some 4, notes := "forced" }]) :=
  reservation_change_status_correct exResUnpaid [] "confirmed" 4 "forced" (by decide)

/-- Claim C5, counterexample: with discount_percentage = 0 and a
supplied discount_amount of 10, OrderItem.save keeps the supplied 10
instead of computing subtotal times 0 / 100 = 0, so the totals are not
computed regardless of the supplied discount_amount. -/
theorem order_item_save_counterexample :
    OrderItem.save vp0 exItem5 = .ok exItem5Saved ∧
    exItem5Saved.discount_amount = 10 ∧
    exItem5Saved.subtotal * (exItem5.discount_percentage / 100) = 0 ∧
    (10 : ℚ) ≠ 0 := by
  refine ⟨?_, ?_, ?_, by norm_num⟩ <;>
    simp +decide [OrderItem.save, OrderItem.clean, OrderItem.calcTotals,
      exItem5, exItem5Saved] <;> norm_num

/-- Claim C5 amended: OrderItem.save computes subtotal as unit price
times quantity and total as subtotal minus discount plus tax; the
discount amount is recomputed from the percentage only when the
percentage is positive, and the tax amount only when the rate is
positive - with a zero percentage or rate the supplied amounts are
kept. -/
theorem order_item_save_totals (vp : Nat → Nat) (it it2 : OrderItem)
    (h : OrderItem.save vp it = .ok it2) :
    it2.subtotal = it.unit_price * it.quantity ∧
    it2.discount_amount =
      (if it.discount_percentage > 0 then it2.subtotal * (it.discount_percentage / 100)
       else it.discount_amount) ∧
    it2.tax_amount =
      (if it.tax_rate > 0 then (it2.subtotal - it2.discount_amount) * (it.tax_rate / 100)
       else it.tax_amount) ∧
    it2.total = it2.subtotal - it2.discount_amount + it2.tax_amount ∧
    it2.quantity = it.quantity ∧ it2.unit_price = it.unit_price := by
  rw [save_ok_eq h]
  exact calcTotals_fields it

/-- Witness for order_item_save_totals on a concrete item with
positive discount and tax rates. -/
theorem order_item_save_totals_witness :
    exItem5bSaved.subtotal = exItem5b.unit_price * exItem5b.quantity ∧
    exItem5bSaved.discount_amount =
      (if exItem5b.discount_percentage > 0 then
        exItem5bSaved.subtotal * (exItem5b.discount_percentage / 100)
       else exItem5b.discount_amount) ∧
    exItem5bSaved.tax_amount =
      (if exItem5b.tax_rate > 0 then
        (exItem5bSaved.subtotal - exItem5bSaved.discount_amount) * (exItem5b.tax_rate / 100)
       else exItem5b.tax_amount) ∧
    exItem5bSaved.total =
      exItem5bSaved.subtotal - exItem5bSaved.discount_amount + exItem5bSaved.tax_amount ∧
    exItem5bSaved.quantity = exItem5b.quantity ∧
    exItem5bSaved.unit_price = exItem5b.unit_price :=
  order_item_save_totals vp0 exItem5b exItem5bSaved (by
    simp +decide [OrderItem.save, OrderItem.clean, OrderItem.calcTotals,
      exItem5b, exItem5bSaved]
    norm_num)

/-- Claim C2, counterexample: with a shipping cost of 5, after saving
an item of total 100 into an otherwise empty order, the order total is
105 while the sum of the item totals is 100, so order.total does not
equal the sum of item totals. -/
theorem order_total_counterexample :
    orderItemSaveCascade vp0 exOrder2 [] exItem2 = .ok (exOrder2Saved, [exItem2Saved]) ∧
    exOrder2Saved.total = 105 ∧
    ([exItem2Saved].map (fun i => i.total)).sum = 100 ∧
    (105 : ℚ) ≠ 100 := by
  refine ⟨?_, ?_, ?_, by norm_num⟩ <;>
    simp +decide [orderItemSaveCascade, OrderItem.save, OrderItem.clean,
      OrderItem.calcTotals, Order.calculate_totals, exOrder2, exItem2,
      exItem2Saved, exOrder2Saved] <;> norm_num

/-- Claim C2 amended: after an item is saved, the parent order resums
its items and the order total equals the sum of the item totals plus
the shipping cost (each sibling item having itself been written by
OrderItem.save, so its total is subtotal minus discount plus tax). -/
theorem order_total_after_item_save (vp : Nat → Nat) (o : Order)
    (others : List OrderItem) (it : OrderItem) (o2 : Order) (items : List OrderItem)
    (hothers : ∀ i ∈ others, i.total = i.subtotal - i.discount_amount + i.tax_amount)
    (h : orderItemSaveCascade vp o others it = .ok (o2, items)) :
    o2.total = (items.map (fun i => i.total)).sum + o.shipping_cost := by
  unfold orderItemSaveCascade at h
  cases hc : OrderItem.save vp it with
  | error e => rw [hc] at h; cases h
  | ok it2 =>
    rw [hc] at h
    have hit2 : it2 = OrderItem.calcTotals it := save_ok_eq hc
    cases h
    have hall : ∀ i ∈ others ++ [it2],
        i.total = i.subtotal - i.discount_amount + i.tax_amount := by
      intro i hi
      rcases List.mem_append.mp hi with hmem | hmem
      · exact hothers i hmem
      · rcases List.mem_singleton.mp hmem with rfl
        rw [hit2]
        exact (calcTotals_fields it).2.2.2.1
    rw [sum_total_eq _ hall]
    simp [Order.calculate_totals]

/-- Witness for order_total_after_item_save at the concrete order and
item. -/
theorem order_total_after_item_save_witness :
    exOrder2Saved.total = ([exItem2Saved].map (fun i => i.total)).sum +
      exOrder2.shipping_cost :=
  order_total_after_item_save vp0 exOrder2 [] exItem2 exOrder2Saved [exItem2Saved]
    (by simp)
    (by simp +decide [orderItemSaveCascade, OrderItem.save, OrderItem.clean,
          OrderItem.calcTotals, Order.calculate_totals, exOrder2, exItem2,
          exItem2Saved, exOrder2Saved] <;> norm_num)

/-- Claim C4, counterexample: exResB overlaps the confirmed
reservation exResConfirmed of the same provider under the half-open
test, and Reservation.clean rejects it - but Reservation.save never
runs clean: saving exResB succeeds and persists both overlapping
reservations, so the overlap rule is not enforced before every save. -/
theorem reservation_save_counterexample :
    Reservation.clean [exResConfirmed] exResB =
      .error "El proveedor ya tiene una reserva en este horario" ∧
    Reservation.save [exResConfirmed] exResB (codes "20260101") =
      ([exResConfirmed, exResB], exResB) ∧
    exResConfirmed.service_provider = exResB.service_provider ∧
    exResConfirmed.start_datetime < exResB.end_datetime ∧
    exResConfirmed.end_datetime > exResB.start_datetime ∧
    exResConfirmed.status = "confirmed" := by
  refine ⟨by rfl, by decide, by decide, by decide, by decide, by decide⟩

/-- Claim C4 amended: the half-open overlap validation lives in
Reservation.clean, which accepts a reservation exactly when its end is
after its start and, when it has a service provider, no other
reservation of that provider with status pending, confirmed or
in_progress satisfies existing.start < new.end and existing.end >
new.start (so boundary-touching reservations pass); Reservation.save
itself never invokes clean - it only generates the reference number
and persists the row - so only code paths that call clean separately
enforce the rule. -/
theorem reservation_clean_save_spec (db : List Reservation) (r : Reservation)
    (d : List Nat) :
    (Reservation.clean db r = .ok () ↔
      (r.start_datetime < r.end_datetime ∧
       ∀ p, r.service_provider = some p →
         ∀ o ∈ db, o.pk ≠ r.pk → o.service_provider = some p →
           o.status ∈ activeResStatuses →
           ¬(o.start_datetime < r.end_datetime ∧ o.end_datetime > r.start_datetime)))
    ∧ (Reservation.save db r d).2 ∈ (Reservation.save db r d).1
    ∧ (Reservation.save db r d).2.start_datetime = r.start_datetime
    ∧ (Reservation.save db r d).2.end_datetime = r.end_datetime
    ∧ (Reservation.save db r d).2.status = r.status
    ∧ (Reservation.save db r d).2.service_provider = r.service_provider := by
  have hrow : (Reservation.savedRow db r d).start_datetime = r.start_datetime ∧
      (Reservation.savedRow db r d).end_datetime = r.end_datetime ∧
      (Reservation.savedRow db r d).status = r.status ∧
      (Reservation.savedRow db r d).service_provider = r.service_provider := by
    unfold Reservation.savedRow
    split
    · exact ⟨rfl, rfl, rfl, rfl⟩
    · exact ⟨rfl, rfl, rfl, rfl⟩
  refine ⟨?_, by simp [Reservation.save], hrow.1, hrow.2.1, hrow.2.2.1, hrow.2.2.2⟩
  unfold Reservation.clean
  by_cases hle : r.end_datetime ≤ r.start_datetime
  · simp only [hle, if_true]
    constructor
    · intro h; cases h
    · intro h; omega
  · simp only [hle, if_false]
    rcases hsp : r.service_provider with _ | p
    · simp only []
      constructor
      · intro _
        refine ⟨by omega, ?_⟩
        intro p hp
        cases hp
      · intro _
        trivial
    · simp only []
      split
      · rename_i hemp
        rw [List.isEmpty_iff, List.filter_eq_nil_iff] at hemp
        constructor
        · intro _
          refine ⟨by omega, ?_⟩
          intro q hq o ho hpk hosp hstat hover
          injection hq with hq
          subst hq
          have hmem : activeResStatuses.contains o.status = true := by
            simpa [List.contains, List.elem_iff] using hstat
          have hno := hemp o ho
          simp [hosp, hmem, hover.1, hover.2, hpk] at hno
          exact hno hstat
        · intro _
          trivial
      · rename_i hemp
        constructor
        · intro h; cases h
        · intro hcond
          exfalso
          apply hemp
          rw [List.isEmpty_iff, List.filter_eq_nil_iff]
          intro o ho hpred
          simp only [Bool.and_eq_true, beq_iff_eq, decide_eq_true_eq,
            bne_iff_ne] at hpred
          obtain ⟨⟨⟨⟨hosp, hstat⟩, h1⟩, h2⟩, hpk⟩ := hpred
          refine hcond.2 p rfl o ho hpk hosp ?_ ⟨h1, h2⟩
          simpa [List.contains, List.elem_iff] using hstat

/-- Witness for reservation_clean_save_spec: the boundary-touching
reservation exResC passes clean against exResConfirmed, and its save
persists it. -/
theorem reservation_clean_save_spec_witness :
    Reservation.clean [exResConfirmed] exResC = .ok () ∧
    (Reservation.save [exResConfirmed] exResC (codes "20260101")).2 ∈
      (Reservation.save [exResConfirmed] exResC (codes "20260101")).1 :=
  ⟨(reservation_clean_save_spec [exResConfirmed] exResC (codes "20260101")).1.mpr
      (by refine ⟨by decide, fun p hp => ?_⟩
          have hp1 : (1 : Nat) = p := by simpa [exResC] using hp
          subst hp1
          decide),
   (reservation_clean_save_spec [exResConfirmed] exResC (codes "20260101")).2.1⟩

/-- Claim C8: on an object belonging to business b, with the
(user, business) uniqueness constraint of the business_members table,
a write is granted iff the requester is staff or an active member of b
with role owner or admin, and a read is granted iff the requester is
staff or an active member of b with any role. -/
theorem object_permission_correct (db : List BusinessMember)
    (isStaff : Bool) (user b : Nat)
    (huniq : ∀ m1 ∈ db, ∀ m2 ∈ db, m1.user = m2.user → m1.business = m2.business →
      m1 = m2) :
    (has_object_permission db isStaff false user (some b) = true ↔
      (isStaff = true ∨ ∃ m ∈ db, m.business = b ∧ m.user = user ∧
        m.is_active = true ∧ (m.role = "owner" ∨ m.role = "admin")))
    ∧ (has_object_permission db isStaff true user (some b) = true ↔
      (isStaff = true ∨ ∃ m ∈ db, m.business = b ∧ m.user = user ∧
        m.is_active = true)) := by
  have hany : (db.any (fun m => m.business == b && m.user == user && m.is_active)) = true ↔
      ∃ m ∈ db, m.business = b ∧ m.user = user ∧ m.is_active = true := by
    rw [List.any_eq_true]
    constructor
    · rintro ⟨m, hm, hp⟩
      simp only [Bool.and_eq_true, beq_iff_eq] at hp
      exact ⟨m, hm, hp.1.1, hp.1.2, hp.2⟩
    · rintro ⟨m, hm, h1, h2, h3⟩
      exact ⟨m, hm, by simp [h1, h2, h3]⟩
  by_cases hst : isStaff = true
  · simp [has_object_permission, hst]
  · constructor
    · simp only [has_object_permission, hst, if_false, Bool.false_eq_true,
        false_or]
      by_cases hmem :
          (db.any (fun m => m.business == b && m.user == user && m.is_active)) = true
      · obtain ⟨m0, hm0, hb0, hu0, ha0⟩ := hany.mp hmem
        simp only [hmem, if_true]
        cases hf : db.find? (fun m => m.business == b && m.user == user) with
        | none =>
          rw [List.find?_eq_none] at hf
          exact absurd (by simp [hb0, hu0]) (hf m0 hm0)
        | some m1 =>
          have hp1 := List.find?_some hf
          have hmem1 := List.mem_of_find?_eq_some hf
          simp only [Bool.and_eq_true, beq_iff_eq] at hp1
          have heq : m1 = m0 :=
            huniq m1 hmem1 m0 hm0 (by rw [hp1.2, hu0]) (by rw [hp1.1, hb0])
          constructor
          · intro hrole
            simp only [Bool.or_eq_true, beq_iff_eq] at hrole
            exact ⟨m1, hmem1, hp1.1, hp1.2, heq ▸ ha0, hrole⟩
          · rintro ⟨m, hm, hb, hu, ha, hrole⟩
            have : m1 = m := huniq m1 hmem1 m hm (by rw [hp1.2, hu]) (by rw [hp1.1, hb])
            rcases hrole with h | h <;> simp [this, h]
      · simp only [hmem, if_false]
        constructor
        · intro h; cases h
        · rintro ⟨m, hm, hb, hu, ha, _⟩
          exact absurd (hany.mpr ⟨m, hm, hb, hu, ha⟩) hmem
    · simp only [has_object_permission, hst, if_false, Bool.false_eq_true,
        false_or]
      exact hany

/-- Witness for object_permission_correct: the active admin of
business 1 is granted a write on an object of business 1. -/
theorem object_permission_correct_witness :
    has_object_permission [exMemberAdmin] false false 10 (some 1) = true ↔
      (false = true ∨ ∃ m ∈ [exMemberAdmin], m.business = 1 ∧ m.user = 10 ∧
        m.is_active = true ∧ (m.role = "owner" ∨ m.role = "admin")) :=
  (object_permission_correct [exMemberAdmin] false 10 1 (by decide)).1

/-- Claim C9: BusinessMember.clean accepts a would-be owner exactly
when no other active owner row of the same business exists, and any
clean-validated write (insert or update by pk) preserves the
at-most-one-active-owner invariant. -/
theorem business_member_owner_invariant (db : List BusinessMember)
    (m : BusinessMember) (b : Nat) :
    (BusinessMember.clean db m = .ok () ↔
      (m.role = "owner" →
        ∀ o ∈ db, o.pk ≠ m.pk → o.business = m.business → o.role = "owner" →
          o.is_active = false))
    ∧ (BusinessMember.clean db m = .ok () → atMostOneActiveOwner db b →
        atMostOneActiveOwner (upsertMember db m) b) := by
  have hiff : BusinessMember.clean db m = .ok () ↔
      (m.role = "owner" →
        ∀ o ∈ db, o.pk ≠ m.pk → o.business = m.business → o.role = "owner" →
          o.is_active = false) := by
    unfold BusinessMember.clean
    by_cases hr : m.role = "owner"
    · have hc : (m.role == "owner") = true := by simp [hr]
      simp only [hc, if_true]
      split
      · rename_i hemp
        rw [List.isEmpty_iff, List.filter_eq_nil_iff] at hemp
        constructor
        · intro _ _ o ho hpk hb hrole
          by_contra hact
          have hact2 : o.is_active = true := by simpa using hact
          exact hemp o ho (by simp [hb, hrole, hact2, hpk])
        · intro _
          trivial
      · rename_i hemp
        constructor
        · intro h; cases h
        · intro hall
          exfalso
          apply hemp
          rw [List.isEmpty_iff, List.filter_eq_nil_iff]
          intro o ho hpred
          simp only [Bool.and_eq_true, beq_iff_eq, bne_iff_ne] at hpred
          obtain ⟨⟨⟨hb, hrole⟩, hact⟩, hpk⟩ := hpred
          have := hall hr o ho hpk hb hrole
          rw [this] at hact
          cases hact
    · have hr2 : (m.role == "owner") = false := by
        simpa using hr
      simp only [hr2, Bool.false_eq_true, if_false]
      constructor
      · intro _ h
        exact absurd h hr
      · intro _
        trivial
  refine ⟨hiff, ?_⟩
  intro hok hinv
  have hclean := hiff.mp hok
  intro m1 hm1 m2 hm2 hb1 hb2 hr1 hr2 ha1 ha2
  have hsplit : ∀ x ∈ upsertMember db m, (x ∈ db ∧ x.pk ≠ m.pk) ∨ x = m := by
    intro x hx
    unfold upsertMember at hx
    rcases List.mem_append.mp hx with h | h
    · have := List.of_mem_filter h
      exact Or.inl ⟨List.mem_of_mem_filter h, by simpa using this⟩
    · exact Or.inr (List.mem_singleton.mp h)
  rcases hsplit m1 hm1 with ⟨hm1db, hpk1⟩ | rfl
  · rcases hsplit m2 hm2 with ⟨hm2db, hpk2⟩ | rfl
    · exact hinv m1 hm1db m2 hm2db hb1 hb2 hr1 hr2 ha1 ha2
    · have := hclean hr2 m1 hm1db hpk1 (by rw [hb1, hb2]) hr1
      rw [ha1] at this
      cases this
  · rcases hsplit m2 hm2 with ⟨hm2db, hpk2⟩ | rfl
    · have := hclean hr1 m2 hm2db hpk2 (by rw [hb2, hb1]) hr2
      rw [ha2] at this
      cases this
    · rfl

/-- Witness for business_member_owner_invariant: validating a second
active owner for business 1 against a table already holding one is
rejected, while validating the first owner against an admin-only table
passes and preserves the invariant. -/
theorem business_member_owner_invariant_witness :
    BusinessMember.clean [exMemberAdmin] exMemberOwner = .ok () ∧
    atMostOneActiveOwner (upsertMember [exMemberAdmin] exMemberOwner) 1 :=
  ⟨(business_member_owner_invariant [exMemberAdmin] exMemberOwner 1).1.mpr (by decide),
   (business_member_owner_invariant [exMemberAdmin] exMemberOwner 1).2
     ((business_member_owner_invariant [exMemberAdmin] exMemberOwner 1).1.mpr (by decide))
     (by unfold atMostOneActiveOwner; decide)⟩

/-! ## Helper lemmas about stock checking and deduction -/

/-- The source of an item only exists when it tracks inventory. -/
lemma src_some_track {it : OrderItem} {ref : StockRef}
    (h : it.src = some ref) : it.product.track_inventory = true := by
  unfold OrderItem.src at h
  cases htr : it.product.track_inventory
  · rw [htr] at h
    simp at h
  · rfl

/-- The per-item stock check passes exactly when itemOkP holds. -/
lemma itemStockCheck_ok_iff (s : StockState) (it : OrderItem) :
    itemStockCheck s it = .ok () ↔ itemOkP s it := by
  cases htr : it.product.track_inventory
  · constructor
    · intro _ htrack
      rw [htr] at htrack
      cases htrack
    · intro _
      unfold itemStockCheck
      rw [htr]
      simp
  · cases hv : it.product.has_variants
    · constructor
      · intro h
        intro _
        refine ⟨fun hf => (by rw [hv] at hf; cases hf), ?_⟩
        intro ref href
        unfold OrderItem.src at href
        rw [htr, hv] at href
        simp only [if_true, Bool.false_eq_true, if_false] at href
        injection href with href
        subst href
        unfold itemStockCheck at h
        rw [htr, hv] at h
        simp only [if_true, Bool.false_eq_true, if_false] at h
        simp only [StockState.at]
        by_contra hlt
        rw [if_pos (by omega)] at h
        cases h
      · intro hP
        unfold itemStockCheck
        rw [htr, hv]
        simp only [if_true, Bool.false_eq_true, if_false]
        have := (hP htr).2 (StockRef.prod it.product.pid)
          (by unfold OrderItem.src; rw [htr, hv]; simp)
        simp only [StockState.at] at this
        rw [if_neg (by omega)]
    · constructor
      · intro h
        intro _
        unfold itemStockCheck at h
        rw [htr, hv] at h
        simp only [if_true] at h
        cases hvar : it.variant with
        | none =>
          rw [hvar] at h
          cases h
        | some v =>
          rw [hvar] at h
          have h2 : (if s.variantStock v < it.quantity then
              Except.error "Stock insuficiente" else Except.ok ()) = Except.ok () := h
          refine ⟨fun _ => ⟨v, rfl⟩, ?_⟩
          intro ref href
          unfold OrderItem.src at href
          rw [htr, hv, hvar] at href
          simp only [if_true, Option.map_some] at href
          injection href with href
          subst href
          simp only [StockState.at]
          by_contra hlt
          rw [if_pos (by omega)] at h2
          cases h2
      · intro hP
        unfold itemStockCheck
        rw [htr, hv]
        simp only [if_true]
        obtain ⟨v, hvar⟩ := (hP htr).1 hv
        rw [hvar]
        show (if s.variantStock v < it.quantity then
            Except.error "Stock insuficiente" else Except.ok ()) = Except.ok ()
        have := (hP htr).2 (StockRef.var v)
          (by unfold OrderItem.src; rw [htr, hv, hvar]; simp)
        simp only [StockState.at] at this
        rw [if_neg (by omega)]

/-- The whole check passes exactly when every item passes. -/
lemma checkItems_ok_iff (s : StockState) (l : List OrderItem) :
    checkItems s l = .ok () ↔ ∀ it ∈ l, itemStockCheck s it = .ok () := by
  induction l with
  | nil => simp [checkItems]
  | cons a rest ih =>
    unfold checkItems
    cases hc : itemStockCheck s a with
    | error e => simp [hc]
    | ok u =>
      cases u
      simp [hc, ih]

/-- Deducting one item leaves every other stock source unchanged. -/
lemma deductItem_at_of_ne (s : StockState) (it : OrderItem) (ref : StockRef)
    (h : it.src ≠ some ref) : (deductItem s it).at ref = s.at ref := by
  unfold OrderItem.src at h
  unfold deductItem
  cases htr : it.product.track_inventory
  · simp
  · rw [htr] at h
    cases hv : it.product.has_variants
    · rw [hv] at h
      simp only [if_true, Bool.false_eq_true, if_false] at h ⊢
      cases ref with
      | var w => rfl
      | prod q =>
        have hq : q ≠ it.product.pid := fun he => h (by subst he; rfl)
        simp [StockState.at, hq]
    · rw [hv] at h
      simp only [if_true] at h ⊢
      cases hvar : it.variant with
      | none => rfl
      | some v =>
        split
        · rename_i v2 heq
          injection heq with heq
          subst heq
          split
          · cases ref with
            | prod p => rfl
            | var w =>
              have hw : w ≠ v := fun he => h (by subst he; simp [hvar])
              simp [StockState.at, hw]
          · rfl
        · rfl

/-- Deducting a list of items leaves untouched sources unchanged. -/
lemma deductItems_at_of_ne (s : StockState) (l : List OrderItem) (ref : StockRef)
    (h : ∀ it ∈ l, it.src ≠ some ref) :
    (deductItems s l).at ref = s.at ref := by
  induction l generalizing s with
  | nil => rfl
  | cons a rest ih =>
    have hstep : deductItems s (a :: rest) = deductItems (deductItem s a) rest := rfl
    rw [hstep, ih (deductItem s a) (fun it hit => h it (by simp [hit]))]
    exact deductItem_at_of_ne s a ref (h a (by simp))

/-- Deducting one item whose source covers its quantity subtracts
exactly that quantity there. -/
lemma deductItem_at_src (s : StockState) (it : OrderItem) (ref : StockRef)
    (hsrc : it.src = some ref) (hok : it.quantity ≤ s.at ref) :
    (deductItem s it).at ref = s.at ref - it.quantity := by
  unfold OrderItem.src at hsrc
  unfold deductItem
  cases htr : it.product.track_inventory
  · rw [htr] at hsrc
    simp at hsrc
  · rw [htr] at hsrc
    cases hv : it.product.has_variants
    · rw [hv] at hsrc
      simp only [if_true, Bool.false_eq_true, if_false] at hsrc ⊢
      injection hsrc with hsrc
      subst hsrc
      simp [StockState.at]
    · rw [hv] at hsrc
      simp only [if_true] at hsrc ⊢
      cases hvar : it.variant with
      | none =>
        rw [hvar] at hsrc
        simp at hsrc
      | some v =>
        rw [hvar] at hsrc
        injection hsrc with hsrc
        subst hsrc
        simp only [StockState.at] at hok
        split
        · rename_i v2 heq
          injection heq with heq
          subst heq
          rw [if_pos hok]
          simp [StockState.at]
        · rename_i heq
          cases heq

/-- With pairwise distinct sources and every check passing, the
deduction loop subtracts exactly each item quantity at its source. -/
lemma deductItems_exact (l : List OrderItem) (s : StockState)
    (hdis : srcDisjoint l)
    (hok : ∀ it ∈ l, ∀ ref, it.src = some ref → it.quantity ≤ s.at ref) :
    ∀ it ∈ l, ∀ ref, it.src = some ref →
      (deductItems s l).at ref = s.at ref - it.quantity := by
  induction l generalizing s with
  | nil => intro it hit; cases hit
  | cons a rest ih =>
    rcases List.pairwise_cons.mp hdis with ⟨hhead, htail⟩
    intro it hit ref href
    have hstep : deductItems s (a :: rest) = deductItems (deductItem s a) rest := rfl
    rcases List.mem_cons.mp hit with rfl | hmem
    · rw [hstep, deductItems_at_of_ne _ _ _ (fun b hb => hhead b hb ref href)]
      exact deductItem_at_src s it ref href (hok it (by simp) ref href)
    · have hanot : a.src ≠ some ref := fun he => (hhead it hmem ref he) href
      have hs2 : ∀ j ∈ rest, ∀ r2, j.src = some r2 →
          j.quantity ≤ (deductItem s a).at r2 := by
        intro j hj r2 hjr
        have hanot2 : a.src ≠ some r2 := fun he => (hhead j hj r2 he) hjr
        rw [deductItem_at_of_ne s a r2 hanot2]
        exact hok j (by simp [hj]) r2 hjr
      rw [hstep, ih (deductItem s a) htail hs2 it hmem ref href,
        deductItem_at_of_ne s a ref hanot]

/-- Claim C1, counterexample: an order holding two items that each
draw 6 units from the same variant with stock 10 passes the check
phase (each item alone is covered) and confirms - but the second
deduction is silently skipped by ProductVariant.deduct_stock, leaving
stock 4 instead of the 10 - 6 - 6 = -2 that deducting exactly each
item quantity would give. -/
theorem order_confirm_counterexample :
    (Order.mark_as_confirmed exConfAlias 4 5).toOption.map
        (fun st2 => st2.stocks.at (StockRef.var 7)) = some 4 ∧
    (10 : ℤ) - 6 - 6 = -2 ∧ (4 : ℤ) ≠ -2 := by
  refine ⟨by decide, by decide, by decide⟩

/-- Claim C1 amended: mark_as_confirmed succeeds exactly on a pending
order whose every tracked item passes the stock check against the
pre-confirmation stock; on success the status becomes confirmed,
confirmed_at is stamped, one history row is appended and the stocks
become the sequential deduction of the items - which subtracts exactly
each item quantity at its source whenever no two items share a stock
source (with a shared variant the later deduction can be skipped, and
a shared product can be driven negative); a failure is a
ValidationError with no state change (the method is wrapped in
transaction.atomic), and confirming the resulting order again fails. -/
theorem order_confirm_spec (st : ConfirmState) (user now : Nat) :
    ((∃ st2, Order.mark_as_confirmed st user now = .ok st2) ↔
      (st.order.status = "pending" ∧ ∀ it ∈ st.items, itemOkP st.stocks it))
    ∧ (∀ st2, Order.mark_as_confirmed st user now = .ok st2 →
        st2.order.status = "confirmed" ∧
        st2.order.confirmed_at = some now ∧
        st2.items = st.items ∧
        st2.stocks = deductItems st.stocks st.items ∧
        st2.history = st.history ++
          [{ previous_status := "pending", new_status := "confirmed",
             changed_by := some user,
             notes := "Orden confirmada y stock reservado" }] ∧
        (srcDisjoint st.items →
          ∀ it ∈ st.items, ∀ ref, it.src = some ref →
            st2.stocks.at ref = st.stocks.at ref - it.quantity) ∧
        Order.mark_as_confirmed st2 user now =
          .error "Solo se pueden confirmar ordenes pendientes") := by
  by_cases hs : st.order.status = "pending"
  · cases hc : checkItems st.stocks st.items with
    | error e =>
      constructor
      · constructor
        · rintro ⟨st2, h⟩
          simp [Order.mark_as_confirmed, hs, hc] at h
        · rintro ⟨_, hall⟩
          have : checkItems st.stocks st.items = .ok () :=
            (checkItems_ok_iff _ _).mpr
              (fun it hit => (itemStockCheck_ok_iff _ _).mpr (hall it hit))
          rw [hc] at this
          cases this
      · intro st2 h
        simp [Order.mark_as_confirmed, hs, hc] at h
    | ok u =>
      cases u
      have hok2 : ∀ it ∈ st.items, itemOkP st.stocks it :=
        fun it hit => (itemStockCheck_ok_iff _ _).mp
          ((checkItems_ok_iff _ _).mp hc it hit)
      have hrun : Order.mark_as_confirmed st user now = .ok
          { st with
            stocks := deductItems st.stocks st.items,
            order := { st.order with status := "confirmed", confirmed_at := some now },
            history := st.history ++
              [{ previous_status := "pending", new_status := "confirmed",
                 changed_by := some user,
                 notes := "Orden confirmada y stock reservado" }] } := by
        simp [Order.mark_as_confirmed, hs, hc]
      constructor
      · constructor
        · intro _
          exact ⟨hs, hok2⟩
        · intro _
          exact ⟨_, hrun⟩
      · intro st2 h
        rw [hrun] at h
        injection h with h
        subst h
        refine ⟨rfl, rfl, rfl, rfl, rfl, ?_, ?_⟩
        · intro hdis it hit ref href
          refine deductItems_exact st.items st.stocks hdis ?_ it hit ref href
          intro j hj r2 hjr
          exact ((hok2 j hj) (src_some_track hjr)).2 r2 hjr
        · simp +decide [Order.mark_as_confirmed]
  · constructor
    · constructor
      · rintro ⟨st2, h⟩
        simp [Order.mark_as_confirmed, hs] at h
      · rintro ⟨h, _⟩
        exact absurd h hs
    · intro st2 h
      simp [Order.mark_as_confirmed, hs] at h

/-- Witness for order_confirm_spec: confirming a pending order with a
single tracked item of quantity 3 against stock 10 succeeds, and the
stock drops to 7. -/
theorem order_confirm_spec_witness :
    (∃ st2, Order.mark_as_confirmed exConfOk 4 5 = .ok st2) ∧
    (deductItems exConfOk.stocks exConfOk.items).at (StockRef.prod 1) = 7 :=
  ⟨(order_confirm_spec exConfOk 4 5).1.mpr
      ⟨rfl, by
        intro it hit
        have heq : it = exItemC := by
          simpa [exConfOk] using hit
        subst heq
        intro _
        refine ⟨fun hf => absurd hf (by decide), ?_⟩
        intro ref href
        have hr : ref = StockRef.prod 1 := by
          simpa [OrderItem.src, exItemC] using href.symm
        subst hr
        decide⟩,
   by decide⟩

/-- Claim C6, counterexample: once an order with daily sequence 10000
exists, the lexicographic max-scan picks the string 9999 again (as a
string, 9999 is greater than 10000), so the next generated number
repeats ORD-20260101-10000: generation is neither unique per
(business, day) nor increasing by exactly 1 beyond sequence 9999. -/
theorem order_number_counterexample :
    genRefNumber (codes "ORD-20260101") [codes "ORD-20260101-9999"] =
      codes "ORD-20260101-10000" ∧
    genRefNumber (codes "ORD-20260101")
      [codes "ORD-20260101-9999", codes "ORD-20260101-10000"] =
      codes "ORD-20260101-10000" ∧
    codes "ORD-20260101-10000" ∈
      [codes "ORD-20260101-9999", codes "ORD-20260101-10000"] := by
  refine ⟨by decide, by decide, by decide⟩

/-! ## Helper lemmas about reference-number generation -/

/-- Lexicographic comparison ignores a common prefix. -/
lemma pyStrLtB_append_left (p a b : List Nat) :
    pyStrLtB (p ++ a) (p ++ b) = pyStrLtB a b := by
  induction p with
  | nil => rfl
  | cons c cs ih =>
    show pyStrLtB (c :: (cs ++ a)) (c :: (cs ++ b)) = pyStrLtB a b
    simp only [pyStrLtB, Nat.lt_irrefl, if_false]
    exact ih

/-- On numbers up to 9999, comparing the four zero-padded digit strings
lexicographically agrees with the numeric order. -/
lemma pad4_lt_iff (a b : Nat) (ha : a ≤ 9999) (hb : b ≤ 9999) :
    pyStrLtB (pad4 a) (pad4 b) = true ↔ a < b := by
  simp only [pad4, pyStrLtB]
  split_ifs <;> simp_all <;> omega

/-- pad4 produces digit codes. -/
lemma pad4_digits (m : Nat) : ∀ c ∈ pad4 m, 48 ≤ c ∧ c ≤ 57 := by
  intro c hc
  simp only [pad4, List.mem_cons, List.not_mem_nil, or_false] at hc
  rcases hc with rfl | rfl | rfl | rfl <;> omega

/-- Parsing the four padded digits of m recovers m, for m up to 9999. -/
lemma parse_pad4 (m : Nat) (hm : m ≤ 9999) : parseDigits (pad4 m) = some m := by
  have hall : (pad4 m).all (fun c => 48 ≤ c && c ≤ 57) = true := by
    rw [List.all_eq_true]
    intro c hc
    have := pad4_digits m c hc
    simp only [Bool.and_eq_true, decide_eq_true_eq]
    omega
  unfold parseDigits
  rw [hall]
  simp only [Bool.not_true, Bool.or_false, pad4, List.isEmpty_cons, if_false,
    Bool.false_eq_true]
  simp only [List.foldl]
  congr 1
  omega

/-- A string starts with itself extended. -/
lemma swCodes_append (p r : List Nat) : swCodes p (p ++ r) = true := by
  induction p with
  | nil => rfl
  | cons c cs ih => simp [swCodes, ih]

/-- Folding the max from an accumulator dominates the accumulator. -/
lemma foldl_max_ge (l : List Nat) (acc : Nat) : acc ≤ l.foldl Nat.max acc := by
  induction l generalizing acc with
  | nil => exact Nat.le_refl acc
  | cons k rest ih =>
    calc acc ≤ Nat.max acc k := Nat.le_max_left acc k
    _ ≤ rest.foldl Nat.max (Nat.max acc k) := ih (Nat.max acc k)

/-- Every member is dominated by the fold of max. -/
lemma mem_le_foldl_max (l : List Nat) (acc : Nat) :
    ∀ k ∈ l, k ≤ l.foldl Nat.max acc := by
  induction l generalizing acc with
  | nil => intro k hk; cases hk
  | cons j rest ih =>
    intro k hk
    rcases List.mem_cons.mp hk with rfl | hk2
    · calc k ≤ Nat.max acc k := Nat.le_max_right acc k
      _ ≤ rest.foldl Nat.max (Nat.max acc k) := foldl_max_ge rest (Nat.max acc k)
    · exact ih (Nat.max acc j) k hk2

/-- Every member is dominated by maxNat. -/
lemma le_maxNat (l : List Nat) : ∀ k ∈ l, k ≤ maxNat l :=
  mem_le_foldl_max l 0

/-- Folding the max stays below any common upper bound. -/
lemma foldl_max_le (l : List Nat) (n : Nat) :
    ∀ acc, acc ≤ n → (∀ k ∈ l, k ≤ n) → l.foldl Nat.max acc ≤ n := by
  induction l with
  | nil => intro acc hacc _; exact hacc
  | cons k rest ih =>
    intro acc hacc hl
    simp only [List.foldl_cons]
    exact ih (Nat.max acc k) (Nat.max_le.mpr ⟨hacc, hl k (by simp)⟩)
      (fun x hx => hl x (by simp [hx]))

/-- maxNat is dominated by any common upper bound. -/
lemma maxNat_le (l : List Nat) (n : Nat) (h : ∀ k ∈ l, k ≤ n) : maxNat l ≤ n :=
  foldl_max_le l n 0 (Nat.zero_le n) h

/-- Appending one element to the list takes the max with it. -/
lemma maxNat_append_one (l : List Nat) (x : Nat) :
    maxNat (l ++ [x]) = Nat.max (maxNat l) x := by
  unfold maxNat
  rw [List.foldl_append]
  rfl

/-- The string max-scan over canonically padded numbers with a common
prefix returns the padded numeric maximum. -/
lemma maxByStr_map_pad4 (q : List Nat) (k0 : Nat) (rest : List Nat)
    (hk0 : k0 ≤ 9999) (hrest : ∀ k ∈ rest, k ≤ 9999) :
    maxByStr ((k0 :: rest).map (fun k => q ++ pad4 k)) =
      some (q ++ pad4 (rest.foldl Nat.max k0)) := by
  have hgo : ∀ (l : List Nat) (acc : Nat), acc ≤ 9999 → (∀ k ∈ l, k ≤ 9999) →
      List.foldl (fun a x =>
          match a with
          | none => some x
          | some m => if pyStrLtB m x then some x else some m)
        (some (q ++ pad4 acc)) (l.map (fun k => q ++ pad4 k)) =
      some (q ++ pad4 (l.foldl Nat.max acc)) := by
    intro l
    induction l with
    | nil => intro acc _ _; rfl
    | cons k rest2 ih =>
      intro acc hacc hl
      have hk : k ≤ 9999 := hl k (by simp)
      simp only [List.map_cons, List.foldl_cons]
      by_cases hlt : acc < k
      · have ht : pyStrLtB (q ++ pad4 acc) (q ++ pad4 k) = true := by
          rw [pyStrLtB_append_left]
          exact (pad4_lt_iff acc k hacc hk).mpr hlt
        simp only [ht, if_true]
        rw [ih k hk (fun x hx => hl x (by simp [hx]))]
        rw [show Nat.max acc k = k from by
          unfold Nat.max
          exact sup_eq_right.mpr (Nat.le_of_lt hlt)]
      · have hf : pyStrLtB (q ++ pad4 acc) (q ++ pad4 k) = false := by
          rw [pyStrLtB_append_left]
          cases hpy : pyStrLtB (pad4 acc) (pad4 k)
          · rfl
          · exact absurd ((pad4_lt_iff acc k hacc hk).mp hpy) hlt
        simp only [hf, Bool.false_eq_true, if_false]
        rw [ih acc hacc (fun x hx => hl x (by simp [hx]))]
        rw [show Nat.max acc k = acc from by
          unfold Nat.max
          exact sup_eq_left.mpr (Nat.le_of_not_lt hlt)]
  unfold maxByStr
  simp only [List.map_cons, List.foldl_cons]
  exact hgo rest k0 hk0 hrest

/-- Folding the last-segment step over dash-free codes appends them. -/
lemma lastSegment_go_noDash (y : List Nat) (acc : List Nat)
    (h : ∀ c ∈ y, c ≠ 45) :
    y.foldl (fun acc c => if c = 45 then [] else acc ++ [c]) acc = acc ++ y := by
  induction y generalizing acc with
  | nil => simp
  | cons c cs ih =>
    have hc : c ≠ 45 := h c (by simp)
    simp only [List.foldl_cons, hc, if_false]
    rw [ih (acc ++ [c]) (fun x hx => h x (by simp [hx]))]
    simp

/-- The segment after the last dash of x ++ dash ++ y is y, when y is
dash-free. -/
lemma lastSegment_append (x y : List Nat) (h : ∀ c ∈ y, c ≠ 45) :
    lastSegment (x ++ 45 :: y) = y := by
  unfold lastSegment
  rw [List.foldl_append]
  simp only [List.foldl_cons, if_pos rfl]
  exact lastSegment_go_noDash y [] h

/-- fmtSeq at 10000: the five plain digits. -/
lemma fmtSeq_10000 : fmtSeq 10000 = [49, 48, 48, 48, 48] := by decide

/-- pad4 always has four codes. -/
lemma pad4_length (m : Nat) : (pad4 m).length = 4 := rfl

/-- The core generation lemma: over a canonical set of existing
numbers (arbitrary numbers not matching the prefix, plus the padded
sequences of the business and day, all at most 9999), genRefNumber
returns the prefix, a dash, and the formatted numeric maximum plus
one. -/
lemma genRefNumber_canonical (pre : List Nat) (seqs : List Nat)
    (others : List (List Nat))
    (hothers : ∀ x ∈ others, swCodes pre x = false)
    (hseqs : ∀ k ∈ seqs, k ≤ 9999)
    (hne : seqs ≠ []) :
    genRefNumber pre (others ++ seqs.map (fun k => pre ++ [45] ++ pad4 k)) =
      pre ++ [45] ++ fmtSeq (maxNat seqs + 1) := by
  have hfilter : (others ++ seqs.map (fun k => pre ++ [45] ++ pad4 k)).filter
      (fun s => swCodes pre s) = seqs.map (fun k => pre ++ [45] ++ pad4 k) := by
    rw [List.filter_append]
    rw [List.filter_eq_nil_iff.mpr (by
      intro x hx
      simp [hothers x hx])]
    rw [List.nil_append]
    rw [List.filter_eq_self.mpr (by
      intro x hx
      rcases List.mem_map.mp hx with ⟨k, _, rfl⟩
      rw [List.append_assoc]
      exact swCodes_append pre ([45] ++ pad4 k))]
  cases hsq : seqs with
  | nil => exact absurd hsq hne
  | cons k0 rest =>
    rw [hsq] at hfilter
    have hmax : maxByStr ((k0 :: rest).map (fun k => pre ++ [45] ++ pad4 k)) =
        some (pre ++ [45] ++ pad4 (maxNat (k0 :: rest))) := by
      rw [maxByStr_map_pad4 (pre ++ [45]) k0 rest
        (hseqs k0 (by rw [hsq]; simp))
        (fun k hk => hseqs k (by rw [hsq]; simp [hk]))]
      have h2 : maxNat (k0 :: rest) = rest.foldl Nat.max k0 := by
        unfold maxNat
        simp [List.foldl_cons, Nat.zero_max]
      rw [h2]
    have hM : maxNat (k0 :: rest) ≤ 9999 :=
      maxNat_le _ _ (fun k hk => hseqs k (by rw [hsq]; exact hk))
    have hseg : lastSegment (pre ++ [45] ++ pad4 (maxNat (k0 :: rest))) =
        pad4 (maxNat (k0 :: rest)) := by
      have hform : pre ++ [45] ++ pad4 (maxNat (k0 :: rest)) =
          pre ++ 45 :: pad4 (maxNat (k0 :: rest)) := by
        simp
      rw [hform]
      exact lastSegment_append pre _ (fun c hc => by
        have := pad4_digits _ c hc
        omega)
    unfold genRefNumber
    rw [hfilter, hmax]
    simp only [hseg, parse_pad4 _ hM]

/-- With all existing sequences at most 9999, the generated number is
fresh: it is not among the existing numbers. -/
lemma genRefNumber_fresh (pre : List Nat) (seqs : List Nat)
    (others : List (List Nat))
    (hothers : ∀ x ∈ others, swCodes pre x = false)
    (hseqs : ∀ k ∈ seqs, k ≤ 9999)
    (hne : seqs ≠ []) :
    genRefNumber pre (others ++ seqs.map (fun k => pre ++ [45] ++ pad4 k)) ∉
      others ++ seqs.map (fun k => pre ++ [45] ++ pad4 k) := by
  rw [genRefNumber_canonical pre seqs others hothers hseqs hne]
  intro hmem
  rcases List.mem_append.mp hmem with h | h
  · have hsw : swCodes pre (pre ++ [45] ++ fmtSeq (maxNat seqs + 1)) = true := by
      rw [List.append_assoc]
      exact swCodes_append pre _
    rw [hothers _ h] at hsw
    cases hsw
  · rcases List.mem_map.mp h with ⟨k, hk, heq⟩
    have hkle : k ≤ 9999 := hseqs k hk
    have hkM : k ≤ maxNat seqs := le_maxNat seqs k hk
    have hM : maxNat seqs ≤ 9999 := maxNat_le seqs 9999 hseqs
    have hcan : pad4 k = fmtSeq (maxNat seqs + 1) := by
      have h2 : (pre ++ [45]) ++ pad4 k = (pre ++ [45]) ++ fmtSeq (maxNat seqs + 1) := heq
      exact List.append_cancel_left h2
    by_cases hcase : maxNat seqs + 1 ≤ 9999
    · rw [show fmtSeq (maxNat seqs + 1) = pad4 (maxNat seqs + 1) from by
        unfold fmtSeq; rw [if_pos (by omega)]] at hcan
      have hp : parseDigits (pad4 k) = parseDigits (pad4 (maxNat seqs + 1)) := by
        rw [hcan]
      rw [parse_pad4 k hkle, parse_pad4 _ hcase] at hp
      injection hp with hp
      omega
    · have hM2 : maxNat seqs = 9999 := by omega
      rw [hM2] at hcan
      have hlen := congrArg List.length hcan
      rw [pad4_length, show fmtSeq (9999 + 1) = [49, 48, 48, 48, 48] from
        fmtSeq_10000] at hlen
      simp at hlen

/-- With no existing number matching the prefix, the first sequence is
0001. -/
lemma genRefNumber_empty (pre : List Nat) (others : List (List Nat))
    (hothers : ∀ x ∈ others, swCodes pre x = false) :
    genRefNumber pre others = pre ++ [45] ++ pad4 1 := by
  unfold genRefNumber
  rw [List.filter_eq_nil_iff.mpr (fun x hx => by simp [hothers x hx])]
  rfl

/-- Claim C6 amended: Order.save generates ORD-YYYYMMDD-sequence
numbers by a lexicographic max-scan over the existing numbers of the
same business.  Over a canonical store (numbers of other days, which
the prefix filter discards, plus the zero-padded sequences of this
business and day): the first order of a day gets sequence 1; while
every existing sequence is at most 9999 the generated number is the
numeric maximum plus one and is fresh (unique per business and day),
and two orders created in sequence get consecutive numbers; once
sequence 10000 exists the scan picks the string 9999 again and
generation repeats 10000 (see the counterexample). -/
theorem order_number_generation (pre : List Nat) (seqs : List Nat)
    (others : List (List Nat)) (o : Order) (d : List Nat)
    (hothers : ∀ x ∈ others, swCodes pre x = false)
    (hseqs : ∀ k ∈ seqs, k ≤ 9999)
    (hne : seqs ≠ [])
    (hnum : o.order_number = []) :
    Order.save (others ++ seqs.map (fun k => pre ++ [45] ++ pad4 k)) o d =
      { o with order_number := genRefNumber (codes "ORD-" ++ d) (others ++ seqs.map (fun k => pre ++ [45] ++ pad4 k)) } ∧
    genRefNumber pre (others ++ seqs.map (fun k => pre ++ [45] ++ pad4 k)) =
      pre ++ [45] ++ fmtSeq (maxNat seqs + 1) ∧
    genRefNumber pre (others ++ seqs.map (fun k => pre ++ [45] ++ pad4 k)) ∉
      others ++ seqs.map (fun k => pre ++ [45] ++ pad4 k) ∧
    (maxNat seqs + 1 ≤ 9999 →
      genRefNumber pre ((others ++ seqs.map (fun k => pre ++ [45] ++ pad4 k)) ++
          [pre ++ [45] ++ pad4 (maxNat seqs + 1)]) =
        pre ++ [45] ++ fmtSeq (maxNat seqs + 2)) ∧
    genRefNumber pre others = pre ++ [45] ++ pad4 1 := by
  refine ⟨?_, genRefNumber_canonical pre seqs others hothers hseqs hne,
    genRefNumber_fresh pre seqs others hothers hseqs hne, ?_,
    genRefNumber_empty pre others hothers⟩
  · simp [Order.save, hnum]
  · intro hbound
    have hshape : (others ++ seqs.map (fun k => pre ++ [45] ++ pad4 k)) ++
        [pre ++ [45] ++ pad4 (maxNat seqs + 1)] =
        others ++ (seqs ++ [maxNat seqs + 1]).map (fun k => pre ++ [45] ++ pad4 k) := by
      rw [List.map_append, List.append_assoc]
      rfl
    rw [hshape]
    rw [genRefNumber_canonical pre (seqs ++ [maxNat seqs + 1]) others hothers
      (by
        intro k hk
        rcases List.mem_append.mp hk with h | h
        · exact hseqs k h
        · rcases List.mem_singleton.mp h with rfl
          exact hbound)
      (by simp)]
    rw [maxNat_append_one]
    rw [show Nat.max (maxNat seqs) (maxNat seqs + 1) = maxNat seqs + 1 from by
      unfold Nat.max
      exact sup_eq_right.mpr (Nat.le_succ _)]

/-- Witness for order_number_generation: from one existing order
ORD-20260101-0001, the next generated number is ORD-20260101-0002. -/
theorem order_number_generation_witness :
    Order.save ([] ++ [1].map (fun k =>
        codes "ORD-" ++ codes "20260101" ++ [45] ++ pad4 k))
      exOrder6 (codes "20260101") =
      { exOrder6 with order_number := genRefNumber (codes "ORD-" ++ codes "20260101") ([] ++ [1].map (fun k => codes "ORD-" ++ codes "20260101" ++ [45] ++ pad4 k)) } ∧
    genRefNumber (codes "ORD-" ++ codes "20260101")
        ([] ++ [1].map (fun k =>
          codes "ORD-" ++ codes "20260101" ++ [45] ++ pad4 k)) =
      codes "ORD-" ++ codes "20260101" ++ [45] ++ fmtSeq (maxNat [1] + 1) ∧
    genRefNumber (codes "ORD-" ++ codes "20260101")
        ([] ++ [1].map (fun k =>
          codes "ORD-" ++ codes "20260101" ++ [45] ++ pad4 k)) ∉
      [] ++ [1].map (fun k =>
        codes "ORD-" ++ codes "20260101" ++ [45] ++ pad4 k) ∧
    (maxNat [1] + 1 ≤ 9999 →
      genRefNumber (codes "ORD-" ++ codes "20260101")
          (([] ++ [1].map (fun k =>
              codes "ORD-" ++ codes "20260101" ++ [45] ++ pad4 k)) ++
            [codes "ORD-" ++ codes "20260101" ++ [45] ++ pad4 (maxNat [1] + 1)]) =
        codes "ORD-" ++ codes "20260101" ++ [45] ++ fmtSeq (maxNat [1] + 2)) ∧
    genRefNumber (codes "ORD-" ++ codes "20260101") [] =
      codes "ORD-" ++ codes "20260101" ++ [45] ++ pad4 1 :=
  order_number_generation (codes "ORD-" ++ codes "20260101") [1] [] exOrder6
    (codes "20260101") (by simp) (by decide) (by decide) rfl

end TDk
